import Mathlib

/-!
Shallow embedding of the image-processing core of the photo-editor
repository: the pixel-math worker stages (embedded worker script in
`src/unnamed/part_006`), the main-thread fallback pixel loop and the
processor guards (`src/utils/image-processor.ts`), the request/response
correlation of `executeImageOperation` (`src/unnamed/part_006`), and the
two undo/redo history implementations
(`src/components/image-editor-tools.tsx`,
`src/components/pro-image-editor.tsx`).

Numeric modelling conventions:
* JavaScript numbers are modelled by `ℚ`; every arithmetic operation in
  these code paths is exact on rationals except `Math.sqrt`, which is
  modelled by `Real.sqrt` (vignette only).
* `Math.round x` is `⌊x + 1/2⌋` (round half toward positive infinity).
* A store into a `Uint8ClampedArray` clamps to `[0, 255]` and rounds
  half to even (`clampedByte`).
* `Math.random()` is modelled by oracle streams passed as arguments.
-/

/-- JavaScript `Math.round`: round half toward positive infinity. -/
def jsRound (x : ℚ) : ℤ := ⌊x + 1/2⌋

/-- The store pattern `Math.max(0, Math.min(255, Math.round(x)))` used by the
worker stages (`src/unnamed/part_006`, e.g. lines 252-254 and 436-438). -/
def clamp255 (x : ℚ) : ℕ := (max 0 (min 255 (jsRound x))).toNat

/-- Round half to even on `ℚ` (the rounding mode of a `Uint8ClampedArray`
store of a non-integer value). -/
def roundHalfEven (q : ℚ) : ℤ :=
  if q - ⌊q⌋ < 1/2 then ⌊q⌋
  else if 1/2 < q - ⌊q⌋ then ⌊q⌋ + 1
  else if ⌊q⌋ % 2 = 0 then ⌊q⌋ else ⌊q⌋ + 1

/-- Conversion performed by a `Uint8ClampedArray` store: clamp to `[0, 255]`,
then round half to even. -/
def clampedByte (q : ℚ) : ℕ :=
  if q ≤ 0 then 0 else if 255 ≤ q then 255 else (roundHalfEven q).toNat

theorem clamp255_le (x : ℚ) : clamp255 x ≤ 255 := by
  unfold clamp255
  rcases le_total (jsRound x) 255 with h | h <;> rcases le_total (jsRound x) 0 with h0 | h0 <;>
    simp [max_def, min_def, h, h0] <;> omega

theorem clampedByte_le (q : ℚ) : clampedByte q ≤ 255 := by
  unfold clampedByte roundHalfEven
  split_ifs with h1 h2 <;> try omega
  all_goals
    have hfl : (⌊q⌋ : ℚ) ≤ q := Int.floor_le q
    have : ⌊q⌋ ≤ 254 := by
      by_contra hc
      push_neg at hc
      have : (255 : ℚ) ≤ (⌊q⌋ : ℚ) := by exact_mod_cast hc
      linarith
    omega

/-- Round of an integer-valued rational is itself. -/
theorem jsRound_intCast (n : ℤ) : jsRound (n : ℚ) = n := by
  unfold jsRound
  rw [Int.floor_eq_iff]
  constructor <;> push_cast <;> linarith

theorem clamp255_natCast (n : ℕ) (h : n ≤ 255) : clamp255 ((n : ℚ)) = n := by
  unfold clamp255
  rw [show ((n : ℚ)) = ((n : ℤ) : ℚ) by push_cast; ring, jsRound_intCast]
  omega

/-- One RGBA pixel: a 4-byte group of an `ImageData.data` array. -/
structure Px where
  r : ℕ
  g : ℕ
  b : ℕ
  a : ℕ
  deriving DecidableEq

/-- The default pixel used for (never-taken, see the length invariant)
out-of-range reads. -/
def blankPx : Px := ⟨0, 0, 0, 0⟩

/-- An `ImageData` buffer: width, height and the RGBA pixel array
(`data`, viewed as pixel quadruples rather than a flat byte array). -/
structure ImageData where
  width : ℕ
  height : ℕ
  data : List Px
  deriving DecidableEq

/-- `rgbToHsl` from the worker script (`src/unnamed/part_006` lines 649-674).
Takes channels scaled `[0,255]`, returns `(h, s, l)` normalized. -/
def rgbToHsl (r g b : ℚ) : ℚ × ℚ × ℚ :=
  let r := r / 255
  let g := g / 255
  let b := b / 255
  let mx := max r (max g b)
  let mn := min r (min g b)
  let l := (mx + mn) / 2
  if mx = mn then (0, 0, l)
  else
    let d := mx - mn
    let s := if l > 1/2 then d / (2 - mx - mn) else d / (mx + mn)
    let h := (if mx = r then (g - b) / d + (if g < b then 6 else 0)
              else if mx = g then (b - r) / d + 2
              else (r - g) / d + 4) / 6
    (h, s, l)

/-- The `hue2rgb` helper inside `hslToRgb` (`src/unnamed/part_006`
lines 685-692). -/
def hue2rgb (p q t : ℚ) : ℚ :=
  let t := if t < 0 then t + 1 else t
  let t := if t > 1 then t - 1 else t
  if t < 1/6 then p + (q - p) * 6 * t
  else if t < 1/2 then q
  else if t < 2/3 then p + (q - p) * (2/3 - t) * 6
  else p

/-- `hslToRgb` (`src/unnamed/part_006` lines 679-703); returns channel values
scaled to `[0, 255]`. -/
def hslToRgb (h s l : ℚ) : ℚ × ℚ × ℚ :=
  if s = 0 then (l * 255, l * 255, l * 255)
  else
    let q := if l < 1/2 then l * (1 + s) else l + s - l * s
    let p := 2 * l - q
    (hue2rgb p q (h + 1/3) * 255, hue2rgb p q h * 255, hue2rgb p q (h - 1/3) * 255)

theorem hue2rgb_A (p q t : ℚ) (h0 : 0 ≤ t) (h1 : t < 1/6) :
    hue2rgb p q t = p + (q - p) * 6 * t := by
  simp only [hue2rgb]
  split_ifs <;> linarith

theorem hue2rgb_B (p q t : ℚ) (h0 : 1/6 ≤ t) (h1 : t < 1/2) :
    hue2rgb p q t = q := by
  simp only [hue2rgb]
  split_ifs <;> linarith

theorem hue2rgb_C (p q t : ℚ) (h0 : 1/2 ≤ t) (h1 : t < 2/3) :
    hue2rgb p q t = p + (q - p) * (2/3 - t) * 6 := by
  simp only [hue2rgb]
  split_ifs <;> linarith

theorem hue2rgb_D (p q t : ℚ) (h0 : 2/3 ≤ t) (h1 : t ≤ 1) :
    hue2rgb p q t = p := by
  simp only [hue2rgb]
  split_ifs <;> linarith

theorem hue2rgb_negD (p q t : ℚ) (h0 : -(1/3) ≤ t) (h1 : t < 0) :
    hue2rgb p q t = p := by
  simp only [hue2rgb]
  split_ifs <;> linarith

theorem hue2rgb_hiA (p q t : ℚ) (h0 : 1 < t) (h1 : t - 1 < 1/6) :
    hue2rgb p q t = p + (q - p) * 6 * (t - 1) := by
  simp only [hue2rgb]
  split_ifs <;> linarith

theorem hue2rgb_hiB (p q t : ℚ) (h0 : 1 < t) (h1 : 1/6 ≤ t - 1) (h2 : t - 1 < 1/2) :
    hue2rgb p q t = q := by
  simp only [hue2rgb]
  split_ifs <;> linarith

/-- In the chromatic case the saturation computed by `rgbToHsl` is positive
(so `hslToRgb` takes its chromatic branch on the round trip). -/
theorem hsl_s_pos (mx mn : ℚ) (h0 : 0 ≤ mn) (h1 : mx ≤ 1) (hlt : mn < mx) :
    0 < (if (mx + mn) / 2 > 1/2 then (mx - mn) / (2 - mx - mn)
         else (mx - mn) / (mx + mn)) := by
  split_ifs with h
  · exact div_pos (by linarith) (by linarith)
  · exact div_pos (by linarith) (by linarith)

/-- The `q` computed by `hslToRgb` from the `(s, l)` produced by `rgbToHsl`
recovers the channel maximum. -/
theorem hsl_q_eq (mx mn : ℚ) (h0 : 0 ≤ mn) (h1 : mx ≤ 1) (hlt : mn < mx) :
    (if (mx + mn) / 2 < 1/2
      then ((mx + mn) / 2) *
        (1 + (if (mx + mn) / 2 > 1/2 then (mx - mn) / (2 - mx - mn)
              else (mx - mn) / (mx + mn)))
      else (mx + mn) / 2 +
        (if (mx + mn) / 2 > 1/2 then (mx - mn) / (2 - mx - mn)
         else (mx - mn) / (mx + mn)) -
        ((mx + mn) / 2) *
        (if (mx + mn) / 2 > 1/2 then (mx - mn) / (2 - mx - mn)
         else (mx - mn) / (mx + mn)))
    = mx := by
  have hsum : 0 < mx + mn := by linarith
  split_ifs with hl hs hs
  · linarith
  · have hne : mx + mn ≠ 0 := ne_of_gt hsum
    field_simp
    ring
  · have h2 : 2 - mx - mn > 0 := by linarith
    have hne : 2 - mx - mn ≠ 0 := ne_of_gt h2
    field_simp
    ring
  · have hone : mx + mn = 1 := by linarith
    rw [hone]
    norm_num
    linarith

theorem hsl_case1 (x y z : ℚ) (hzy : z ≤ y) (hyx : y ≤ x) (hzx : z < x) :
    hue2rgb z x ((y - z) / (x - z) / 6 + 1/3) = x ∧
    hue2rgb z x ((y - z) / (x - z) / 6) = y ∧
    hue2rgb z x ((y - z) / (x - z) / 6 - 1/3) = z := by
  have hd : (0:ℚ) < x - z := by linarith
  have hdne : x - z ≠ 0 := ne_of_gt hd
  have hu0 : 0 ≤ (y - z) / (x - z) := div_nonneg (by linarith) hd.le
  have hu1 : (y - z) / (x - z) ≤ 1 := by rw [div_le_one hd]; linarith
  rcases lt_or_eq_of_le hu1 with hu | hu
  · refine ⟨?_, ?_, ?_⟩
    · rw [hue2rgb_B _ _ _ (by linarith) (by linarith)]
    · rw [hue2rgb_A _ _ _ (by linarith) (by linarith)]
      field_simp
    · rw [hue2rgb_negD _ _ _ (by linarith) (by linarith)]
  · have hyx' : y = x := by
      rw [div_eq_one_iff_eq hdne] at hu
      linarith
    refine ⟨?_, ?_, ?_⟩
    · rw [hu, hue2rgb_C _ _ _ (by norm_num) (by norm_num)]
      ring
    · rw [hu, hue2rgb_B _ _ _ (by norm_num) (by norm_num)]
      exact hyx'.symm
    · rw [hu, hue2rgb_negD _ _ _ (by norm_num) (by norm_num)]

theorem hsl_case2 (x y z : ℚ) (hyz : y < z) (hzx : z ≤ x) :
    hue2rgb y x (((y - z) / (x - y) + 6) / 6 + 1/3) = x ∧
    hue2rgb y x (((y - z) / (x - y) + 6) / 6) = y ∧
    hue2rgb y x (((y - z) / (x - y) + 6) / 6 - 1/3) = z := by
  have hd : (0:ℚ) < x - y := by linarith
  have hdne : x - y ≠ 0 := ne_of_gt hd
  have hu1 : -1 ≤ (y - z) / (x - y) := by
    rw [le_div_iff₀ hd]
    linarith
  have hu0 : (y - z) / (x - y) < 0 := div_neg_of_neg_of_pos (by linarith) hd
  refine ⟨?_, ?_, ?_⟩
  · rw [hue2rgb_hiB _ _ _ (by linarith) (by linarith) (by linarith)]
  · rw [hue2rgb_D _ _ _ (by linarith) (by linarith)]
  · rw [hue2rgb_C _ _ _ (by linarith) (by linarith)]
    field_simp
    ring

theorem hsl_case3a (x y z : ℚ) (hzx : z < x) (hxy : x ≤ y) :
    hue2rgb z y (((z - x) / (y - z) + 2) / 6 + 1/3) = x ∧
    hue2rgb z y (((z - x) / (y - z) + 2) / 6) = y ∧
    hue2rgb z y (((z - x) / (y - z) + 2) / 6 - 1/3) = z := by
  have hd : (0:ℚ) < y - z := by linarith
  have hdne : y - z ≠ 0 := ne_of_gt hd
  have hu1 : -1 ≤ (z - x) / (y - z) := by
    rw [le_div_iff₀ hd]
    linarith
  have hu0 : (z - x) / (y - z) < 0 := div_neg_of_neg_of_pos (by linarith) hd
  refine ⟨?_, ?_, ?_⟩
  · rw [hue2rgb_C _ _ _ (by linarith) (by linarith)]
    field_simp
    ring
  · rw [hue2rgb_B _ _ _ (by linarith) (by linarith)]
  · rw [hue2rgb_negD _ _ _ (by linarith) (by linarith)]

theorem hsl_case3b (x y z : ℚ) (hxz : x ≤ z) (hzy : z ≤ y) (hxy : x < y) :
    hue2rgb x y (((z - x) / (y - x) + 2) / 6 + 1/3) = x ∧
    hue2rgb x y (((z - x) / (y - x) + 2) / 6) = y ∧
    hue2rgb x y (((z - x) / (y - x) + 2) / 6 - 1/3) = z := by
  have hd : (0:ℚ) < y - x := by linarith
  have hdne : y - x ≠ 0 := ne_of_gt hd
  have hu0 : 0 ≤ (z - x) / (y - x) := div_nonneg (by linarith) hd.le
  have hu1 : (z - x) / (y - x) ≤ 1 := by rw [div_le_one hd]; linarith
  refine ⟨?_, ?_, ?_⟩
  · rw [hue2rgb_D _ _ _ (by linarith) (by linarith)]
  · rcases lt_or_eq_of_le hu1 with hu | hu
    · rw [hue2rgb_B _ _ _ (by linarith) (by linarith)]
    · rw [hu, hue2rgb_C _ _ _ (by norm_num) (by norm_num)]
      ring
  · rcases lt_or_eq_of_le hu1 with hu | hu
    · rw [hue2rgb_A _ _ _ (by linarith) (by linarith)]
      field_simp
      ring
    · have hzy' : z = y := by
        rw [div_eq_one_iff_eq hdne] at hu
        linarith
      rw [hu, hue2rgb_B _ _ _ (by norm_num) (by norm_num)]
      exact hzy'.symm

theorem hsl_case4a (x y z : ℚ) (hyx : y < x) (hxz : x < z) :
    hue2rgb y z (((x - y) / (z - y) + 4) / 6 + 1/3) = x ∧
    hue2rgb y z (((x - y) / (z - y) + 4) / 6) = y ∧
    hue2rgb y z (((x - y) / (z - y) + 4) / 6 - 1/3) = z := by
  have hd : (0:ℚ) < z - y := by linarith
  have hdne : z - y ≠ 0 := ne_of_gt hd
  have hu0 : 0 < (x - y) / (z - y) := div_pos (by linarith) hd
  have hu1 : (x - y) / (z - y) < 1 := (div_lt_one hd).mpr (by linarith)
  refine ⟨?_, ?_, ?_⟩
  · rw [hue2rgb_hiA _ _ _ (by linarith) (by linarith)]
    field_simp
    ring
  · rw [hue2rgb_D _ _ _ (by linarith) (by linarith)]
  · rw [hue2rgb_B _ _ _ (by linarith) (by linarith)]

theorem hsl_case4b (x y z : ℚ) (hxy : x ≤ y) (hyz : y < z) :
    hue2rgb x z (((x - y) / (z - x) + 4) / 6 + 1/3) = x ∧
    hue2rgb x z (((x - y) / (z - x) + 4) / 6) = y ∧
    hue2rgb x z (((x - y) / (z - x) + 4) / 6 - 1/3) = z := by
  have hd : (0:ℚ) < z - x := by linarith
  have hdne : z - x ≠ 0 := ne_of_gt hd
  have hu1 : -1 < (x - y) / (z - x) := by
    rw [lt_div_iff₀ hd]
    linarith
  have hu0 : (x - y) / (z - x) ≤ 0 :=
    div_nonpos_of_nonpos_of_nonneg (by linarith) hd.le
  refine ⟨?_, ?_, ?_⟩
  · rw [hue2rgb_D _ _ _ (by linarith) (by linarith)]
  · rcases lt_or_eq_of_le hu0 with hu | hu
    · rw [hue2rgb_C _ _ _ (by linarith) (by linarith)]
      field_simp
      ring
    · have hxy' : x = y := by
        rcases div_eq_zero_iff.mp hu with h | h
        · linarith
        · exact absurd h hdne
      rw [hu, hue2rgb_D _ _ _ (by norm_num) (by norm_num)]
      exact hxy'
  · rw [hue2rgb_B _ _ _ (by linarith) (by linarith)]

/-- Exactness of the HSL round trip over exact rational arithmetic: for
channels in `[0, 255]`, `hslToRgb` applied to the `(h, s, l)` produced by
`rgbToHsl` returns the original channels exactly. -/
theorem hsl_roundtrip_exact (r g b : ℚ)
    (h0r : 0 ≤ r) (h1r : r ≤ 255) (h0g : 0 ≤ g) (h1g : g ≤ 255)
    (h0b : 0 ≤ b) (h1b : b ≤ 255) :
    hslToRgb (rgbToHsl r g b).1 (rgbToHsl r g b).2.1 (rgbToHsl r g b).2.2
      = (r, g, b) := by
  have h255 : (0:ℚ) < 255 := by norm_num
  simp only [rgbToHsl]
  set x := r / 255 with hxdef
  set y := g / 255 with hydef
  set z := b / 255 with hzdef
  have hx0 : 0 ≤ x := div_nonneg h0r h255.le
  have hx1 : x ≤ 1 := by rw [hxdef]; exact (div_le_one h255).mpr h1r
  have hy0 : 0 ≤ y := div_nonneg h0g h255.le
  have hy1 : y ≤ 1 := by rw [hydef]; exact (div_le_one h255).mpr h1g
  have hz0 : 0 ≤ z := div_nonneg h0b h255.le
  have hz1 : z ≤ 1 := by rw [hzdef]; exact (div_le_one h255).mpr h1b
  have hxr : x * 255 = r := by rw [hxdef]; field_simp
  have hyg : y * 255 = g := by rw [hydef]; field_simp
  have hzb : z * 255 = b := by rw [hzdef]; field_simp
  by_cases hach : max x (max y z) = min x (min y z)
  · rw [if_pos hach]
    have hxle : x ≤ max x (max y z) := le_max_left _ _
    have hyle : y ≤ max x (max y z) := le_trans (le_max_left y z) (le_max_right x _)
    have hzle : z ≤ max x (max y z) := le_trans (le_max_right y z) (le_max_right x _)
    have hxge : max x (max y z) ≤ x := by rw [hach]; exact min_le_left _ _
    have hyge : max x (max y z) ≤ y := by
      rw [hach]; exact le_trans (min_le_right _ _) (min_le_left _ _)
    have hzge : max x (max y z) ≤ z := by
      rw [hach]; exact le_trans (min_le_right _ _) (min_le_right _ _)
    have hl : (max x (max y z) + min x (min y z)) / 2 = x := by
      rw [← hach]
      have : max x (max y z) = x := le_antisymm hxge hxle
      rw [this]; ring
    show hslToRgb 0 0 ((max x (max y z) + min x (min y z)) / 2) = (r, g, b)
    rw [hslToRgb, if_pos rfl, hl]
    simp only [Prod.mk.injEq]
    refine ⟨hxr, ?_, ?_⟩
    · have hxy : x = y := le_antisymm (le_trans hxle hyge) (le_trans hyle hxge)
      rw [hxy]; exact hyg
    · have hxz : x = z := le_antisymm (le_trans hxle hzge) (le_trans hzle hxge)
      rw [hxz]; exact hzb
  · rw [if_neg hach]
    have hmn0 : 0 ≤ min x (min y z) := le_min hx0 (le_min hy0 hz0)
    have hmx1 : max x (max y z) ≤ 1 := max_le hx1 (max_le hy1 hz1)
    have hmnle : min x (min y z) ≤ max x (max y z) :=
      le_trans (min_le_left _ _) (le_max_left _ _)
    have hlt : min x (min y z) < max x (max y z) :=
      lt_of_le_of_ne hmnle (fun h => hach h.symm)
    have hspos := hsl_s_pos (max x (max y z)) (min x (min y z)) hmn0 hmx1 hlt
    dsimp only
    rw [hslToRgb, if_neg (ne_of_gt hspos)]
    dsimp only
    rw [hsl_q_eq (max x (max y z)) (min x (min y z)) hmn0 hmx1 hlt]
    have hp : 2 * ((max x (max y z) + min x (min y z)) / 2) - max x (max y z)
        = min x (min y z) := by ring
    rw [hp]
    simp only [Prod.mk.injEq]
    by_cases hmxx : max x (max y z) = x
    · rw [if_pos hmxx]
      have hyle : y ≤ x := hmxx ▸ le_trans (le_max_left y z) (le_max_right x _)
      have hzle : z ≤ x := hmxx ▸ le_trans (le_max_right y z) (le_max_right x _)
      by_cases hyz : y < z
      · have hmneq : min x (min y z) = y := by
          rw [min_eq_left hyz.le, min_eq_right hyle]
        rw [if_pos hyz, hmxx, hmneq]
        obtain ⟨e1, e2, e3⟩ := hsl_case2 x y z hyz hzle
        exact ⟨by rw [e1]; exact hxr, by rw [e2]; exact hyg, by rw [e3]; exact hzb⟩
      · have hzy : z ≤ y := not_lt.mp hyz
        have hmneq : min x (min y z) = z := by
          rw [min_eq_right hzy, min_eq_right hzle]
        have hzx : z < x := by
          have := hlt
          rw [hmxx, hmneq] at this
          exact this
        rw [if_neg hyz, hmxx, hmneq, add_zero]
        obtain ⟨e1, e2, e3⟩ := hsl_case1 x y z hzy hyle hzx
        exact ⟨by rw [e1]; exact hxr, by rw [e2]; exact hyg, by rw [e3]; exact hzb⟩
    · rw [if_neg hmxx]
      by_cases hmxy : max x (max y z) = y
      · rw [if_pos hmxy]
        have hxle : x ≤ y := hmxy ▸ le_max_left x (max y z)
        have hzle : z ≤ y := hmxy ▸ le_trans (le_max_right y z) (le_max_right x _)
        have hxy : x < y :=
          lt_of_le_of_ne hxle (fun h => hmxx (hmxy.trans h.symm))
        by_cases hzx : z < x
        · have hmneq : min x (min y z) = z := by
            rw [min_eq_right hzle, min_eq_right hzx.le]
          rw [hmxy, hmneq]
          obtain ⟨e1, e2, e3⟩ := hsl_case3a x y z hzx hxy.le
          exact ⟨by rw [e1]; exact hxr, by rw [e2]; exact hyg, by rw [e3]; exact hzb⟩
        · have hxz : x ≤ z := not_lt.mp hzx
          have hmneq : min x (min y z) = x := by
            rw [min_eq_right hzle, min_eq_left hxz]
          rw [hmxy, hmneq]
          obtain ⟨e1, e2, e3⟩ := hsl_case3b x y z hxz hzle hxy
          exact ⟨by rw [e1]; exact hxr, by rw [e2]; exact hyg, by rw [e3]; exact hzb⟩
      · rw [if_neg hmxy]
        have hmxz : max x (max y z) = z := by
          rcases max_choice x (max y z) with h | h
          · exact absurd h hmxx
          · rcases max_choice y z with h2 | h2
            · exact absurd (h.trans h2) hmxy
            · exact h.trans h2
        have hxle : x ≤ z := hmxz ▸ le_max_left x (max y z)
        have hyle : y ≤ z := hmxz ▸ le_trans (le_max_left y z) (le_max_right x _)
        have hyz : y < z :=
          lt_of_le_of_ne hyle (fun h => hmxy (hmxz.trans h.symm))
        by_cases hyx : y < x
        · have hxz : x < z :=
            lt_of_le_of_ne hxle (fun h => hmxx (hmxz.trans h.symm))
          have hmneq : min x (min y z) = y := by
            rw [min_eq_left hyz.le, min_eq_right hyx.le]
          rw [hmxz, hmneq]
          obtain ⟨e1, e2, e3⟩ := hsl_case4a x y z hyx hxz
          exact ⟨by rw [e1]; exact hxr, by rw [e2]; exact hyg, by rw [e3]; exact hzb⟩
        · have hxy : x ≤ y := not_lt.mp hyx
          have hmneq : min x (min y z) = x := by
            rw [min_eq_left hyz.le, min_eq_left hxy]
          rw [hmxz, hmneq]
          obtain ⟨e1, e2, e3⟩ := hsl_case4b x y z hxy hyz
          exact ⟨by rw [e1]; exact hxr, by rw [e2]; exact hyg, by rw [e3]; exact hzb⟩

/-- `Math.min(limit - 1, Math.max(0, i))`: clamp-to-edge sample index used by
`applyBoxBlur` (`src/unnamed/part_006` lines 313 and 344). -/
def clampIdx (limit : ℕ) (i : ℤ) : ℕ := (min ((limit : ℤ) - 1) (max 0 i)).toNat

/-- One output channel of a box-blur pass: the mean of the `2*radius+1`
clamp-to-edge samples (the code counts every sample, duplicates included),
written through the clamped-array store. -/
def blurAvg (radius : ℕ) (vals : ℤ → ℕ) : ℕ :=
  clampedByte
    ((((List.range (2 * radius + 1)).map
        (fun k => ((vals ((k : ℤ) - (radius : ℤ)) : ℚ)))).sum) / (2 * radius + 1))

/-- Horizontal pass of `applyBoxBlur` (`src/unnamed/part_006` lines 306-330). -/
def boxBlurH (radius : ℕ) (img : ImageData) : ImageData :=
  { img with data := (List.range (img.width * img.height)).map (fun j =>
      let y := j / img.width
      let x := j % img.width
      let sample := fun (o : ℤ) =>
        img.data.getD (y * img.width + clampIdx img.width ((x : ℤ) + o)) blankPx
      ⟨blurAvg radius (fun o => (sample o).r), blurAvg radius (fun o => (sample o).g),
       blurAvg radius (fun o => (sample o).b), blurAvg radius (fun o => (sample o).a)⟩) }

/-- Vertical pass of `applyBoxBlur` (`src/unnamed/part_006` lines 337-361). -/
def boxBlurV (radius : ℕ) (img : ImageData) : ImageData :=
  { img with data := (List.range (img.width * img.height)).map (fun j =>
      let y := j / img.width
      let x := j % img.width
      let sample := fun (o : ℤ) =>
        img.data.getD ((clampIdx img.height ((y : ℤ) + o)) * img.width + x) blankPx
      ⟨blurAvg radius (fun o => (sample o).r), blurAvg radius (fun o => (sample o).g),
       blurAvg radius (fun o => (sample o).b), blurAvg radius (fun o => (sample o).a)⟩) }

/-- `applyBoxBlur` (`src/unnamed/part_006` lines 297-362): separable two-pass
mean filter, all four channels averaged independently. -/
def applyBoxBlur (radius : ℕ) (img : ImageData) : ImageData :=
  boxBlurV radius (boxBlurH radius img)

/-- Per-channel unsharp-mask store
`Math.max(0, Math.min(255, orig + amount * (orig - blurred)))`
(`src/unnamed/part_006` line 289), written through the clamped array. -/
def usmChannel (amount : ℚ) (orig blurred : ℕ) : ℕ :=
  clampedByte (max 0 (min 255 ((orig : ℚ) + amount * ((orig : ℚ) - (blurred : ℚ)))))

/-- `applyUnsharpMask` (`src/unnamed/part_006` lines 268-292): sharpens the
RGB channels against a radius-1 box blur; the alpha byte is not written. -/
def applyUnsharpMask (amount : ℚ) (img : ImageData) : ImageData :=
  let blurred := applyBoxBlur 1 img
  { img with data := (List.range img.data.length).map (fun j =>
      let orig := img.data.getD j blankPx
      let blr := blurred.data.getD j blankPx
      ⟨usmChannel amount orig.r blr.r, usmChannel amount orig.g blr.g,
       usmChannel amount orig.b blr.b, orig.a⟩) }

/-- Parameters consumed by `applyBasicAdjustments`. -/
structure BasicParams where
  brightness : ℚ
  contrast : ℚ
  clarity : ℚ
  sharpen : ℚ
  deriving DecidableEq

/-- Per-pixel body of `applyBasicAdjustments` (`src/unnamed/part_006`
lines 226-255): brightness scale, contrast factor
`259*(contrast+255)/(255*(259-contrast))`, clarity push away from the pixel
RGB average, then `clamp255`; alpha untouched. -/
def basicPixel (p : BasicParams) (px : Px) : Px :=
  let brightnessValue := p.brightness / 100
  let contrastFactor := (259 * (p.contrast + 255)) / (255 * (259 - p.contrast))
  let r0 := (px.r : ℚ) * brightnessValue
  let g0 := (px.g : ℚ) * brightnessValue
  let b0 := (px.b : ℚ) * brightnessValue
  let r1 := contrastFactor * (r0 - 128) + 128
  let g1 := contrastFactor * (g0 - 128) + 128
  let b1 := contrastFactor * (b0 - 128) + 128
  let rgb2 :=
    if p.clarity ≠ 0 then
      let clarityAmount := p.clarity / 100
      let avgColor := (r1 + g1 + b1) / 3
      (r1 + (r1 - avgColor) * clarityAmount, g1 + (g1 - avgColor) * clarityAmount,
       b1 + (b1 - avgColor) * clarityAmount)
    else (r1, g1, b1)
  ⟨clamp255 rgb2.1, clamp255 rgb2.2.1, clamp255 rgb2.2.2, px.a⟩

/-- `applyBasicAdjustments` (`src/unnamed/part_006` lines 211-263): the
per-pixel pass, then `applyUnsharpMask (sharpen/100)` when `sharpen > 0`. -/
def applyBasicAdjustments (p : BasicParams) (img : ImageData) : ImageData :=
  let result := { img with data := img.data.map (basicPixel p) }
  if p.sharpen > 0 then applyUnsharpMask (p.sharpen / 100) result else result

/-- JavaScript remainder `x % 1` (truncated toward zero). -/
def jsMod1 (x : ℚ) : ℚ := x - (if 0 ≤ x then (⌊x⌋ : ℚ) else (⌈x⌉ : ℚ))

/-- Parameters consumed by `applyColorAdjustments`. -/
structure ColorParams where
  saturation : ℚ
  vibrance : ℚ
  hue : ℚ
  temperature : ℚ
  deriving DecidableEq

/-- Per-pixel body of `applyColorAdjustments` (`src/unnamed/part_006`
lines 381-439): temperature shift in RGB, then an HSL round trip carrying
hue rotation, saturation scale and vibrance, then `clamp255`; alpha
untouched. -/
def colorPixel (p : ColorParams) (px : Px) : Px :=
  let saturationValue := p.saturation / 100
  let vibranceValue := p.vibrance / 100
  let tempAdjust := p.temperature / 100
  let r0 : ℚ := px.r
  let g0 : ℚ := px.g
  let b0 : ℚ := px.b
  let rgb1 :=
    if tempAdjust ≠ 0 then
      (if tempAdjust > 0 then
        (r0 + tempAdjust * 25, g0 + tempAdjust * 15, b0 - tempAdjust * 25)
      else
        (r0 + tempAdjust * 15, g0 + tempAdjust * 10, b0 - tempAdjust * 25))
    else (r0, g0, b0)
  let hsl := rgbToHsl rgb1.1 rgb1.2.1 rgb1.2.2
  let h1 := if p.hue ≠ 0 then jsMod1 (hsl.1 + p.hue / 360) else hsl.1
  let s1 := if p.saturation ≠ 100 then hsl.2.1 * saturationValue else hsl.2.1
  let s2 :=
    if p.vibrance ≠ 0 then max 0 (min 1 (s1 * (1 + vibranceValue * (1 - s1))))
    else s1
  let rgb := hslToRgb h1 s2 hsl.2.2
  ⟨clamp255 rgb.1, clamp255 rgb.2.1, clamp255 rgb.2.2, px.a⟩

/-- `applyColorAdjustments` (`src/unnamed/part_006` lines 367-442). -/
def applyColorAdjustments (p : ColorParams) (img : ImageData) : ImageData :=
  { img with data := img.data.map (colorPixel p) }

/-- `grayscale` preset (`src/unnamed/part_006` lines 493-498). -/
def grayscalePixel (px : Px) : Px :=
  let avg := (px.r : ℚ) * 0.299 + (px.g : ℚ) * 0.587 + (px.b : ℚ) * 0.114
  ⟨clampedByte avg, clampedByte avg, clampedByte avg, px.a⟩

/-- `sepia` preset (`src/unnamed/part_006` lines 499-509). -/
def sepiaPixel (px : Px) : Px :=
  let r : ℚ := px.r
  let g : ℚ := px.g
  let b : ℚ := px.b
  ⟨clampedByte (min 255 (r * 0.393 + g * 0.769 + b * 0.189)),
   clampedByte (min 255 (r * 0.349 + g * 0.686 + b * 0.168)),
   clampedByte (min 255 (r * 0.272 + g * 0.534 + b * 0.131)), px.a⟩

/-- `invert` preset (`src/unnamed/part_006` lines 510-516). -/
def invertPixel (px : Px) : Px :=
  ⟨clampedByte (255 - (px.r : ℚ)), clampedByte (255 - (px.g : ℚ)),
   clampedByte (255 - (px.b : ℚ)), px.a⟩

/-- `vintage` preset (`src/unnamed/part_006` lines 517-528). -/
def vintagePixel (px : Px) : Px :=
  let r : ℚ := px.r
  let g : ℚ := px.g
  let b : ℚ := px.b
  ⟨clampedByte (min 255 (r * 0.5 + g * 0.4 + b * 0.19 + 40)),
   clampedByte (min 255 (r * 0.3 + g * 0.4 + b * 0.16 + 20)),
   clampedByte (min 255 (r * 0.2 + g * 0.3 + b * 0.26)), px.a⟩

/-- `cool` preset (`src/unnamed/part_006` lines 529-536). -/
def coolPixel (px : Px) : Px :=
  ⟨clampedByte (max 0 ((px.r : ℚ) * 0.9)), clampedByte (max 0 ((px.g : ℚ))),
   clampedByte (min 255 ((px.b : ℚ) * 1.2)), px.a⟩

/-- `warm` preset (`src/unnamed/part_006` lines 537-544). -/
def warmPixel (px : Px) : Px :=
  ⟨clampedByte (min 255 ((px.r : ℚ) * 1.1 + 15)),
   clampedByte (min 255 ((px.g : ℚ) * 1.05)),
   clampedByte (max 0 ((px.b : ℚ) * 0.9)), px.a⟩

/-- `dramatic` preset (`src/unnamed/part_006` lines 545-561). -/
def dramaticPixel (px : Px) : Px :=
  let hsl := rgbToHsl (px.r : ℚ) (px.g : ℚ) (px.b : ℚ)
  let s1 := min 1 (hsl.2.1 * 1.3)
  let l1 :=
    if hsl.2.2 > 0.5 then hsl.2.2 + (hsl.2.2 - 0.5) * 0.2
    else hsl.2.2 - (0.5 - hsl.2.2) * 0.2
  let rgb := hslToRgb hsl.1 s1 l1
  ⟨clampedByte rgb.1, clampedByte rgb.2.1, clampedByte rgb.2.2, px.a⟩

/-- `noir` preset (`src/unnamed/part_006` lines 562-571). -/
def noirPixel (px : Px) : Px :=
  let avg0 := (px.r : ℚ) * 0.299 + (px.g : ℚ) * 0.587 + (px.b : ℚ) * 0.114
  let avg1 := if avg0 < 127 then avg0 * 0.8 else avg0 * 1.2
  let avg := max 0 (min 255 avg1)
  ⟨clampedByte avg, clampedByte avg, clampedByte avg, px.a⟩

/-- `fade` preset (`src/unnamed/part_006` lines 572-583). -/
def fadePixel (px : Px) : Px :=
  ⟨clampedByte (min 255 ((px.r : ℚ) * 0.9 + 20)),
   clampedByte (min 255 ((px.g : ℚ) * 0.9 + 20)),
   clampedByte (min 255 ((px.b : ℚ) * 0.9 + 30)), px.a⟩

/-- `applyFilterPreset` (`src/unnamed/part_006` lines 488-590): name-keyed
dispatch over the preset table; an unknown name is a no-op. -/
def applyFilterPreset (filterType : String) (img : ImageData) : ImageData :=
  if filterType = "grayscale" then { img with data := img.data.map grayscalePixel }
  else if filterType = "sepia" then { img with data := img.data.map sepiaPixel }
  else if filterType = "invert" then { img with data := img.data.map invertPixel }
  else if filterType = "vintage" then { img with data := img.data.map vintagePixel }
  else if filterType = "cool" then { img with data := img.data.map coolPixel }
  else if filterType = "warm" then { img with data := img.data.map warmPixel }
  else if filterType = "dramatic" then { img with data := img.data.map dramaticPixel }
  else if filterType = "noir" then { img with data := img.data.map noirPixel }
  else if filterType = "fade" then { img with data := img.data.map fadePixel }
  else img

/-- `applyNoiseEffect` (`src/unnamed/part_006` lines 630-644). `Math.random()`
is modelled by two oracle streams: `rnd1 j` is the skip draw and `rnd2 j` the
noise draw for pixel `j`. -/
def applyNoiseEffect (amount : ℚ) (rnd1 rnd2 : ℕ → ℚ) (img : ImageData) : ImageData :=
  { img with data := (List.range img.data.length).map (fun j =>
      let px := img.data.getD j blankPx
      if rnd1 j < 1/2 then px
      else
        let noiseVal := (rnd2 j - 1/2) * amount * 50
        ⟨clampedByte (max 0 (min 255 ((px.r : ℚ) + noiseVal))),
         clampedByte (max 0 (min 255 ((px.g : ℚ) + noiseVal))),
         clampedByte (max 0 (min 255 ((px.b : ℚ) + noiseVal))), px.a⟩) }

/-- Per-pixel body of `applyVignetteEffect` (`src/unnamed/part_006`
lines 595-625). `Math.sqrt` forces `ℝ`; the store
`Math.floor(channel * factor)` lands in a `Uint8ClampedArray`, hence the
integer clamp around the floor. -/
noncomputable def vignettePx (w h x y : ℕ) (amount : ℝ) (px : Px) : Px :=
  let centerX : ℝ := (w : ℝ) / 2
  let centerY : ℝ := (h : ℝ) / 2
  let dx := ((x : ℝ) - centerX) / centerX
  let dy := ((y : ℝ) - centerY) / centerY
  let distance := Real.sqrt (dx ^ 2 + dy ^ 2)
  if distance > 1/2 then
    let factor := 1 - min 1 (amount * ((distance - 1/2) * 2) ^ 2)
    ⟨(min 255 (max 0 ⌊(px.r : ℝ) * factor⌋)).toNat,
     (min 255 (max 0 ⌊(px.g : ℝ) * factor⌋)).toNat,
     (min 255 (max 0 ⌊(px.b : ℝ) * factor⌋)).toNat, px.a⟩
  else px

/-- `applyVignetteEffect` (`src/unnamed/part_006` lines 595-625). -/
noncomputable def applyVignetteEffect (amount : ℝ) (img : ImageData) : ImageData :=
  { img with data := (List.range (img.width * img.height)).map (fun j =>
      vignettePx img.width img.height (j % img.width) (j / img.width) amount
        (img.data.getD j blankPx)) }

/-- Parameters consumed by `applyEffects`. -/
structure EffectParams where
  filterType : String
  vignette : ℚ
  noise : ℚ
  blur : ℚ
  deriving DecidableEq

/-- `applyEffects` (`src/unnamed/part_006` lines 447-483): filter preset
(guarded by `filterType && filterType !== 'none'`), then vignette, then noise,
then box blur with radius `Math.max(1, Math.floor(blur / 20))`. -/
noncomputable def applyEffects (p : EffectParams) (rnd1 rnd2 : ℕ → ℚ)
    (img : ImageData) : ImageData :=
  let i1 :=
    if p.filterType ≠ "" ∧ p.filterType ≠ "none" then applyFilterPreset p.filterType img
    else img
  let i2 := if p.vignette > 0 then applyVignetteEffect ((p.vignette : ℝ) / 100) i1 else i1
  let i3 := if p.noise > 0 then applyNoiseEffect (p.noise / 100) rnd1 rnd2 i2 else i2
  if p.blur > 0 then applyBoxBlur (max 1 (⌊p.blur / 20⌋).toNat) i3 else i3

/-- The worker-path stage sequencing of `_doProcessImage`
(`src/utils/image-processor.ts` lines 226-275): basic adjustments, then color
adjustments, then effects only when some effect parameter is non-neutral. -/
noncomputable def processStages (bp : BasicParams) (cp : ColorParams) (ep : EffectParams)
    (rnd1 rnd2 : ℕ → ℚ) (img : ImageData) : ImageData :=
  let i1 := applyBasicAdjustments bp img
  let i2 := applyColorAdjustments cp i1
  if ep.filterType ≠ "none" ∨ ep.vignette > 0 ∨ ep.noise > 0 ∨ ep.blur > 0 then
    applyEffects ep rnd1 rnd2 i2
  else i2

/-- `defaultAdjustments` (`src/utils/image-processor.ts` lines 50-66), basic
stage fields. -/
def defaultBasic : BasicParams := ⟨100, 100, 0, 0⟩

/-- `defaultAdjustments`, color stage fields. -/
def defaultColor : ColorParams := ⟨100, 0, 0, 0⟩

/-- `defaultAdjustments`, effects stage fields. -/
def defaultEffects : EffectParams := ⟨"none", 0, 0, 0⟩

/-- Adjustment fields read by the main-thread fallback pixel loop. -/
structure MainThreadParams where
  brightness : ℚ
  contrast : ℚ
  clarity : ℚ
  saturation : ℚ
  deriving DecidableEq

/-- Per-pixel body of the `processImageOnMainThread` fallback
(`src/utils/image-processor.ts` lines 313-351): brightness, contrast and
clarity exactly as the worker stage, then a luma-mix saturation (not the HSL
one), one final `clamp255`; alpha untouched. -/
def mainThreadPixel (p : MainThreadParams) (px : Px) : Px :=
  let brightness := p.brightness / 100
  let contrastFactor := (259 * (p.contrast + 255)) / (255 * (259 - p.contrast))
  let r0 := (px.r : ℚ) * brightness
  let g0 := (px.g : ℚ) * brightness
  let b0 := (px.b : ℚ) * brightness
  let r1 := contrastFactor * (r0 - 128) + 128
  let g1 := contrastFactor * (g0 - 128) + 128
  let b1 := contrastFactor * (b0 - 128) + 128
  let rgb2 :=
    if p.clarity ≠ 0 then
      let clarityAmount := p.clarity / 100
      let avgColor := (r1 + g1 + b1) / 3
      (r1 + (r1 - avgColor) * clarityAmount, g1 + (g1 - avgColor) * clarityAmount,
       b1 + (b1 - avgColor) * clarityAmount)
    else (r1, g1, b1)
  let rgb3 :=
    if p.saturation ≠ 100 then
      let gray := 0.2989 * rgb2.1 + 0.5870 * rgb2.2.1 + 0.1140 * rgb2.2.2
      let satFactor := p.saturation / 100
      (gray + satFactor * (rgb2.1 - gray), gray + satFactor * (rgb2.2.1 - gray),
       gray + satFactor * (rgb2.2.2 - gray))
    else rgb2
  ⟨clamp255 rgb3.1, clamp255 rgb3.2.1, clamp255 rgb3.2.2, px.a⟩

/-- The pixel loop of `processImageOnMainThread` over a whole buffer
(the filter and gradient-vignette steps that follow are skipped when
`filterType = 'none'` and `vignette = 0`). -/
def applyMainThreadAdjustments (p : MainThreadParams) (img : ImageData) : ImageData :=
  { img with data := img.data.map (mainThreadPixel p) }

/-- An event at the `executeImageOperation` boundary
(`src/unnamed/part_006` lines 714-745): a caller submits an operation
(registering a `handleMessage` listener keyed by its own fresh id and posting
the job), or the worker responds with a message carrying an id. -/
inductive ExecEvent where
  | submit (id : ℕ)
  | respond (id : ℕ)
  deriving DecidableEq

/-- Listener/delivery state of the worker message channel: the ids of the
registered (still pending) `handleMessage` listeners in registration order,
and the deliveries made so far as `(operation id, response id)` pairs. -/
structure ExecState where
  listeners : List ℕ
  delivered : List (ℕ × ℕ)
  deriving DecidableEq

/-- One step of the `executeImageOperation` protocol. `submit` appends a
listener (`worker.addEventListener`). On `respond`, the browser dispatches the
message to every registered listener; a listener whose `operationId` equals
the message id resolves its promise (a delivery) and removes itself
(`worker.removeEventListener`); all other listeners ignore the message. -/
def execStep (s : ExecState) : ExecEvent → ExecState
  | .submit opId => { s with listeners := s.listeners ++ [opId] }
  | .respond respId =>
      { listeners := s.listeners.filter (fun opId => opId != respId),
        delivered := s.delivered ++
          (s.listeners.filter (fun opId => opId == respId)).map (fun opId => (opId, respId)) }

/-- Run the message protocol from the empty state. -/
def execRun (events : List ExecEvent) : ExecState :=
  events.foldl execStep ⟨[], []⟩

/-- `applyChanges` history update of `image-editor-tools.tsx` (lines 172-186):
state is `(history, historyIndex)` with initial value `([], -1)`; a commit
truncates after the cursor, appends, caps the list at the 10 most recent
entries (`slice(-10)`), and increments the cursor. -/
def commitTools (st : List String × ℤ) (img : String) : List String × ℤ :=
  let nh := st.1.take (st.2 + 1).toNat ++ [img]
  (if nh.length > 10 then nh.drop (nh.length - 10) else nh, st.2 + 1)

/-- `handleUndo` of `image-editor-tools.tsx` (lines 190-196). -/
def undoTools (st : List String × ℤ) : List String × ℤ :=
  if st.2 > 0 then (st.1, st.2 - 1) else st

/-- `saveToHistory` of `pro-image-editor.tsx` (lines 349-363): truncate after
the cursor when not at the tail, push, cursor to the new tail. No capacity
cap appears in this implementation. -/
def commitPro (st : List String × ℤ) (img : String) : List String × ℤ :=
  let h0 := if st.2 < (st.1.length : ℤ) - 1 then st.1.take (st.2 + 1).toNat else st.1
  (h0 ++ [img], (h0.length : ℤ))

/-- `handleUndo` of `pro-image-editor.tsx` (lines 481-489). -/
def undoPro (st : List String × ℤ) : List String × ℤ :=
  if st.2 > 0 then (st.1, st.2 - 1) else st

/-- Presence flags of the `ImageProcessor` fields consulted by its guards
(`sourceImage`, `canvas`, `ctx`); `initialize` sets them, `cleanup` nulls
them. -/
structure ProcessorState where
  sourceImage : Bool
  canvas : Bool
  ctx : Bool
  deriving DecidableEq

/-- `cleanup` (`src/utils/image-processor.ts` lines 82-89): nulls every
resource field. `destroy` calls it. -/
def cleanupState (_s : ProcessorState) : ProcessorState :=
  ⟨false, false, false⟩

/-- The freshly constructed processor: all resource fields are null. -/
def uninitializedState : ProcessorState := ⟨false, false, false⟩

/-- Outcome of an `ImageProcessor` entry point, as far as the guards decide
it: an early `null` return, normal processing, or an `InvalidState` error
(the error the specification prescribes; used to state the claim). -/
inductive ProcOutcome where
  | nullResult
  | proceeds
  | invalidStateError
  deriving DecidableEq

/-- Guard of `processImage` (`src/utils/image-processor.ts` lines 173-176),
also reached by `updateAdjustments` and `resetAdjustments`:
`if (!this.sourceImage || !this.canvas || !this.ctx) return null`. -/
def processImageGuard (s : ProcessorState) : ProcOutcome :=
  if !s.sourceImage || !s.canvas || !s.ctx then .nullResult else .proceeds

/-- Guard of `generateFinalImage` (`src/utils/image-processor.ts`
lines 446-447): `if (!this.sourceImage) return null`. -/
def generateFinalImageGuard (s : ProcessorState) : ProcOutcome :=
  if !s.sourceImage then .nullResult else .proceeds

/-- A one-pixel demonstration buffer. -/
def demoImg : ImageData := ⟨1, 1, [⟨100, 100, 100, 255⟩]⟩

theorem exec_submit_fold (ids : List ℕ) (s : ExecState) :
    (ids.map ExecEvent.submit).foldl execStep s
      = { s with listeners := s.listeners ++ ids } := by
  induction ids generalizing s with
  | nil => simp
  | cons i t ih =>
    rw [List.map_cons, List.foldl_cons]
    rw [show execStep s (.submit i) = { s with listeners := s.listeners ++ [i] } from rfl]
    rw [ih]
    simp

theorem exec_respond_fold (ids : List ℕ) (del : List (ℕ × ℕ)) (h : ids.Nodup) :
    (ids.map ExecEvent.respond).foldl execStep ⟨ids, del⟩
      = ⟨[], del ++ ids.map (fun i => (i, i))⟩ := by
  induction ids generalizing del with
  | nil => simp
  | cons i t ih =>
    have hnotin : i ∉ t := (List.nodup_cons.mp h).1
    have ht : t.Nodup := (List.nodup_cons.mp h).2
    have hfilter1 : (i :: t).filter (fun o => o != i) = t := by
      rw [List.filter_cons]
      simp only [bne_self_eq_false, Bool.false_eq_true, if_false]
      exact List.filter_eq_self.mpr (fun o ho => by
        simp only [bne_iff_ne, ne_eq]
        exact fun he => hnotin (he ▸ ho))
    have hfilter2 : (i :: t).filter (fun o => o == i) = [i] := by
      rw [List.filter_cons]
      simp only [beq_self_eq_true, if_true]
      rw [List.filter_eq_nil_iff.mpr (fun o ho => by
        simp only [beq_iff_eq]
        exact fun he => hnotin (he ▸ ho))]
    rw [List.map_cons, List.foldl_cons]
    rw [show execStep ⟨i :: t, del⟩ (.respond i)
        = ⟨(i :: t).filter (fun o => o != i),
           del ++ ((i :: t).filter (fun o => o == i)).map (fun opId => (opId, i))⟩ from rfl]
    rw [hfilter1, hfilter2, ih _ ht]
    simp

/-- C2 (counterexample): requests with ids 1, 2, 3 are all submitted before
the executor responds; the code then delivers each response to its own
caller — deliveries `[(1,1), (2,2), (3,3)]` — instead of delivering only the
result for id 3 and dropping those for 1 and 2. -/
theorem C2_all_results_delivered :
    (execRun [.submit 1, .submit 2, .submit 3,
              .respond 1, .respond 2, .respond 3]).delivered
      = [(1, 1), (2, 2), (3, 3)] ∧
    ¬(execRun [.submit 1, .submit 2, .submit 3,
               .respond 1, .respond 2, .respond 3]).delivered = [(3, 3)] := by
  constructor <;> decide

/-- C2 (amended): `executeImageOperation` correlates responses by operation
id, not by recency. When several requests with distinct ids are submitted and
the executor then responds to each, every caller receives exactly the
response carrying the id it submitted, and no pending listener remains; no
in-flight result is dropped (a response is ignored only by listeners whose id
differs). -/
theorem C2_responses_correlated_by_id (ids : List ℕ) (h : ids.Nodup) :
    execRun (ids.map ExecEvent.submit ++ ids.map ExecEvent.respond)
      = ⟨[], ids.map (fun i => (i, i))⟩ := by
  unfold execRun
  rw [List.foldl_append, exec_submit_fold]
  simpa using exec_respond_fold ids [] h

/-- Witness for `C2_responses_correlated_by_id` at ids `[1, 2, 3]`. -/
theorem C2_responses_correlated_by_id_witness :
    ([1, 2, 3] : List ℕ).Nodup ∧
    execRun ([1, 2, 3].map ExecEvent.submit ++ [1, 2, 3].map ExecEvent.respond)
      = ⟨[], [(1, 1), (2, 2), (3, 3)]⟩ :=
  ⟨by decide, by
    have h := C2_responses_correlated_by_id [1, 2, 3] (by decide)
    simpa using h⟩

/-- C4: starting from the empty history, `commit A; commit B; undo; commit C`
leaves exactly the history `[A, C]` (B discarded) with the cursor at index 1,
i.e. at `C` — in both history implementations (`applyChanges` of
image-editor-tools and `saveToHistory` of pro-image-editor): a commit issued
away from the tail truncates everything after the cursor, then appends and
advances the cursor. -/
theorem C4_undo_then_commit_truncates (A B C : String) :
    commitTools (undoTools (commitTools (commitTools ([], -1) A) B)) C = ([A, C], 1) ∧
    commitPro (undoPro (commitPro (commitPro ([], -1) A) B)) C = ([A, C], 1) := by
  constructor <;> rfl

/-- C5 (counterexample): eleven consecutive `saveToHistory` commits
(pro-image-editor) leave eleven entries — that history has no capacity cap,
so the entry count does exceed 10. -/
theorem C5_pro_history_uncapped :
    ((List.replicate 11 "x").foldl commitPro ([], -1)).1.length = 11 ∧ ¬(11 ≤ 10) := by
  constructor
  · rfl
  · decide

/-- C5 (amended): the capacity cap of 10 holds for the `applyChanges` history
of image-editor-tools: any commit leaves at most 10 entries, and the kept
entries are a suffix of the truncated-then-appended list (eviction drops from
the head, keeping the most recent). The `saveToHistory` history of
pro-image-editor has no cap and can exceed 10 entries. -/
theorem C5_tools_history_capped (st : List String × ℤ) (img : String) :
    (commitTools st img).1.length ≤ 10 ∧
    (commitTools st img).1 <:+ (st.1.take (st.2 + 1).toNat ++ [img]) := by
  simp only [commitTools]
  split_ifs with h
  · refine ⟨?_, List.drop_suffix _ _⟩
    rw [List.length_drop]
    omega
  · exact ⟨by omega, List.suffix_refl _⟩

/-- C6 (counterexample): invoking processing on an uninitialized processor
returns `null` (the guards return early); it does not fail with an
`InvalidState` error. -/
theorem C6_uninitialized_returns_null :
    processImageGuard uninitializedState = ProcOutcome.nullResult ∧
    generateFinalImageGuard uninitializedState = ProcOutcome.nullResult ∧
    ProcOutcome.nullResult ≠ ProcOutcome.invalidStateError := by
  refine ⟨rfl, rfl, by decide⟩

/-- C6 (amended): a call to `updateAdjustments`/`processImage` or
`generateFinalImage` before `initialize` succeeded, or after `destroy`
(whose `cleanup` nulls the resource fields), returns `null`; no code path
produces an `InvalidState` error. -/
theorem C6_guards_return_null (s : ProcessorState) :
    processImageGuard uninitializedState = ProcOutcome.nullResult ∧
    generateFinalImageGuard uninitializedState = ProcOutcome.nullResult ∧
    processImageGuard (cleanupState s) = ProcOutcome.nullResult ∧
    generateFinalImageGuard (cleanupState s) = ProcOutcome.nullResult ∧
    processImageGuard s ≠ ProcOutcome.invalidStateError ∧
    generateFinalImageGuard s ≠ ProcOutcome.invalidStateError := by
  refine ⟨rfl, rfl, rfl, rfl, ?_, ?_⟩ <;>
    · simp only [processImageGuard, generateFinalImageGuard]
      split_ifs <;> decide

theorem clamp255_eval (x : ℚ) (n : ℤ) (h0 : 0 ≤ n) (h255 : n ≤ 255)
    (h1 : (n : ℚ) ≤ x + 1/2) (h2 : x + 1/2 < n + 1) : clamp255 x = n.toNat := by
  unfold clamp255 jsRound
  rw [show ⌊x + 1/2⌋ = n from Int.floor_eq_iff.mpr ⟨h1, by push_cast; linarith⟩]
  rw [min_eq_right h255, max_eq_right h0]

/-- The neutral color stage: with `defaultAdjustments` color parameters
(saturation 100, vibrance 0, hue 0, temperature 0) `colorPixel` is the
identity on every byte-valued pixel, because the unconditional HSL round trip
is exact over rationals. -/
theorem colorPixel_default_id (px : Px) (hr : px.r ≤ 255) (hg : px.g ≤ 255)
    (hb : px.b ≤ 255) : colorPixel defaultColor px = px := by
  have h := hsl_roundtrip_exact (px.r : ℚ) (px.g : ℚ) (px.b : ℚ)
    (by positivity) (by exact_mod_cast hr) (by positivity) (by exact_mod_cast hg)
    (by positivity) (by exact_mod_cast hb)
  simp only [colorPixel, defaultColor]
  norm_num
  rw [h]
  simp only []
  rw [clamp255_natCast _ hr, clamp255_natCast _ hg, clamp255_natCast _ hb]

/-- `applyBasicAdjustments` at the default parameters sends the channel value
100 to 65: the default `contrast = 100` (the source comments call 100
"normal") goes through `259*(c+255)/(255*(259-c)) ≈ 2.268`. -/
theorem basicPixel_default_demo :
    basicPixel defaultBasic ⟨100, 100, 100, 255⟩ = ⟨65, 65, 65, 255⟩ := by
  have h65 : clamp255 (523060/8109 : ℚ) = 65 := by
    rw [clamp255_eval _ 65 (by norm_num) (by norm_num) (by norm_num) (by norm_num)]
    rfl
  simp only [basicPixel, defaultBasic]
  norm_num
  exact h65

/-- The worker color stage at `temperature = 100` shifts `(65,65,65)` to
`(90,80,40)` (then the HSL round trip is exact). -/
theorem colorPixel_temp_demo :
    colorPixel ⟨100, 0, 0, 100⟩ (⟨65, 65, 65, 255⟩ : Px) = ⟨90, 80, 40, 255⟩ := by
  have h := hsl_roundtrip_exact 90 80 40 (by norm_num) (by norm_num) (by norm_num)
    (by norm_num) (by norm_num) (by norm_num)
  have c90 : clamp255 (90 : ℚ) = 90 := by
    rw [clamp255_eval _ 90 (by norm_num) (by norm_num) (by norm_num) (by norm_num)]
    rfl
  have c80 : clamp255 (80 : ℚ) = 80 := by
    rw [clamp255_eval _ 80 (by norm_num) (by norm_num) (by norm_num) (by norm_num)]
    rfl
  have c40 : clamp255 (40 : ℚ) = 40 := by
    rw [clamp255_eval _ 40 (by norm_num) (by norm_num) (by norm_num) (by norm_num)]
    rfl
  simp only [colorPixel]
  norm_num
  rw [h]
  exact ⟨c90, c80, c40⟩

/-- The main-thread fallback pixel loop ignores `temperature`: at brightness
100, contrast 100, clarity 0, saturation 100 it maps `(100,100,100)` to
`(65,65,65)` (same contrast factor as the worker stage, nothing else). -/
theorem mainThreadPixel_demo :
    mainThreadPixel ⟨100, 100, 0, 100⟩ (⟨100, 100, 100, 255⟩ : Px) = ⟨65, 65, 65, 255⟩ := by
  have h65 : clamp255 (523060/8109 : ℚ) = 65 := by
    rw [clamp255_eval _ 65 (by norm_num) (by norm_num) (by norm_num) (by norm_num)]
    rfl
  simp only [mainThreadPixel]
  norm_num
  exact h65

/-- C1 (the code evaluated at the failing input): running the worker stage
sequence of `_doProcessImage` with `defaultAdjustments` maps the buffer
`[(100,100,100,255)]` to `[(65,65,65,255)]` — a deviation of 35 per channel,
far beyond the ±1 the identity property allows. The default `contrast = 100`
(documented in the source as "100 is normal") is fed unconverted into the
standard contrast factor `259*(c+255)/(255*(259-c))`, which expects a scale
where 0 is neutral; at `c = 100` the factor is ≈ 2.268, not 1. -/
theorem C1_default_params_not_identity :
    (processStages defaultBasic defaultColor defaultEffects
        (fun _ => 0) (fun _ => 0) demoImg).data = [⟨65, 65, 65, 255⟩] ∧
    ¬((100 : ℤ) - 65 ≤ 1) := by
  constructor
  · simp only [processStages]
    rw [if_neg (by norm_num [defaultEffects])]
    simp only [applyBasicAdjustments, applyColorAdjustments, demoImg]
    rw [if_neg (by norm_num [defaultBasic])]
    simp only [List.map_cons, List.map_nil]
    rw [basicPixel_default_demo, colorPixel_default_id _ (by norm_num) (by norm_num) (by norm_num)]
  · decide

/-- C3 (counterexample): with `temperature = 100` and everything else default,
the worker stage path maps `(100,100,100,255)` to `(90,80,40,255)` while the
main-thread fallback — whose pixel loop never reads `temperature` — produces
`(65,65,65,255)`: the worker path and the fallback path are not behaviorally
interchangeable. -/
theorem C3_fallback_differs_on_temperature :
    ¬(applyColorAdjustments ⟨100, 0, 0, 100⟩
        (applyBasicAdjustments defaultBasic demoImg)
      = applyMainThreadAdjustments ⟨100, 100, 0, 100⟩ demoImg) := by
  simp only [applyBasicAdjustments, applyColorAdjustments, applyMainThreadAdjustments, demoImg]
  rw [if_neg (by norm_num [defaultBasic])]
  simp only [List.map_cons, List.map_nil]
  rw [basicPixel_default_demo, colorPixel_temp_demo, mainThreadPixel_demo]
  intro hcontra
  have : (⟨90, 80, 40, 255⟩ : Px) = ⟨65, 65, 65, 255⟩ := by
    have hdata := congrArg (fun i => i.data) hcontra
    simp only [List.cons.injEq, and_true] at hdata
    exact hdata
  simp at this

/-- With `saturation = 100` the fallback pixel loop computes exactly the
brightness/contrast/clarity formula of the worker basic stage. -/
theorem mainThreadPixel_eq_basic (brightness contrast clarity : ℚ) (px : Px) :
    mainThreadPixel ⟨brightness, contrast, clarity, 100⟩ px
      = basicPixel ⟨brightness, contrast, clarity, 0⟩ px := by
  simp only [mainThreadPixel, basicPixel]
  norm_num

/-- C3 (amended): the fallback path and the worker stage path agree — exactly,
for every buffer — on the parameter region where the fallback implements the
same operations: `sharpen = 0`, `saturation = 100`, `vibrance = 0`,
`hue = 0`, `temperature = 0` (and the effects stage skipped), for arbitrary
brightness, contrast and clarity. Outside that region they differ
(`temperature`, for instance, is ignored by the fallback). -/
theorem C3_fallback_agrees_on_neutral_color (brightness contrast clarity : ℚ)
    (img : ImageData) :
    applyMainThreadAdjustments ⟨brightness, contrast, clarity, 100⟩ img
      = applyColorAdjustments defaultColor
          (applyBasicAdjustments ⟨brightness, contrast, clarity, 0⟩ img) := by
  have hcomp : (fun px => colorPixel defaultColor
        (basicPixel ⟨brightness, contrast, clarity, 0⟩ px))
      = mainThreadPixel ⟨brightness, contrast, clarity, 100⟩ := by
    funext px
    rw [colorPixel_default_id _ (clamp255_le _) (clamp255_le _) (clamp255_le _)]
    exact (mainThreadPixel_eq_basic brightness contrast clarity px).symm
  simp only [applyMainThreadAdjustments, applyColorAdjustments, applyBasicAdjustments]
  rw [if_neg (by norm_num)]
  apply congrArg (fun d => ImageData.mk img.width img.height d)
  rw [List.map_map]
  rw [show colorPixel defaultColor ∘ basicPixel ⟨brightness, contrast, clarity, 0⟩
      = fun px => colorPixel defaultColor (basicPixel ⟨brightness, contrast, clarity, 0⟩ px)
    from rfl]
  rw [hcomp]

theorem getD_map (f : Px → Px) (l : List Px) (j : ℕ) (d : Px) (hj : j < l.length) :
    (l.map f).getD j d = f (l.getD j d) := by
  rw [List.getD_eq_getElem l d hj, List.getD_eq_getElem _ d (by simpa using hj),
      List.getElem_map]

theorem getD_rangeMap (g : ℕ → Px) (n j : ℕ) (d : Px) (hj : j < n) :
    ((List.range n).map g).getD j d = g j := by
  rw [List.getD_eq_getElem _ d (by simpa using hj), List.getElem_map, List.getElem_range]

/-- C10: the basic-adjustments operation (brightness, contrast, clarity and
the sharpen path) and the color-adjustments operation leave the alpha byte of
every pixel unchanged, for all parameters and all buffers. -/
theorem C10_alpha_preserved (bp : BasicParams) (cp : ColorParams)
    (img : ImageData) (j : ℕ) :
    ((applyBasicAdjustments bp img).data.getD j blankPx).a
      = (img.data.getD j blankPx).a ∧
    ((applyColorAdjustments cp img).data.getD j blankPx).a
      = (img.data.getD j blankPx).a := by
  constructor
  · simp only [applyBasicAdjustments]
    split_ifs with hs
    · simp only [applyUnsharpMask]
      rcases lt_or_ge j img.data.length with hj | hj
      · rw [getD_rangeMap _ _ _ _ (by simpa using hj)]
        simp only []
        rw [getD_map _ _ _ _ hj]
        rfl
      · rw [List.getD_eq_default, List.getD_eq_default] <;> simpa using hj
    · rcases lt_or_ge j img.data.length with hj | hj
      · rw [getD_map _ _ _ _ hj]
        rfl
      · rw [List.getD_eq_default, List.getD_eq_default] <;> simpa using hj
  · simp only [applyColorAdjustments]
    rcases lt_or_ge j img.data.length with hj | hj
    · rw [getD_map _ _ _ _ hj]
      rfl
    · rw [List.getD_eq_default, List.getD_eq_default] <;> simpa using hj

/-- All four bytes of a pixel are in `[0, 255]`. -/
def pxInRange (px : Px) : Prop :=
  px.r ≤ 255 ∧ px.g ≤ 255 ∧ px.b ≤ 255 ∧ px.a ≤ 255

/-- The `ImageData` channel invariant: every byte of every pixel is in
`[0, 255]` (the lower bound is inherent in `ℕ`). -/
def bytesInRange (img : ImageData) : Prop := ∀ px ∈ img.data, pxInRange px

theorem getD_pxInRange (l : List Px) (h : ∀ px ∈ l, pxInRange px) (j : ℕ) :
    pxInRange (l.getD j blankPx) := by
  rcases lt_or_ge j l.length with hj | hj
  · rw [List.getD_eq_getElem l blankPx hj]
    exact h _ (List.getElem_mem hj)
  · rw [List.getD_eq_default _ _ hj]
    exact ⟨by decide, by decide, by decide, by decide⟩

theorem bytesInRange_map {f : Px → Px} (hf : ∀ px, pxInRange px → pxInRange (f px))
    (img : ImageData) (h : bytesInRange img) :
    bytesInRange { img with data := img.data.map f } := by
  intro px hpx
  rw [List.mem_map] at hpx
  obtain ⟨q, hq, rfl⟩ := hpx
  exact hf q (h q hq)

theorem pxInRange_basicPixel (p : BasicParams) : ∀ px, pxInRange px →
    pxInRange (basicPixel p px) :=
  fun _ h => ⟨clamp255_le _, clamp255_le _, clamp255_le _, h.2.2.2⟩

theorem pxInRange_colorPixel (p : ColorParams) : ∀ px, pxInRange px →
    pxInRange (colorPixel p px) :=
  fun _ h => ⟨clamp255_le _, clamp255_le _, clamp255_le _, h.2.2.2⟩

theorem bytesInRange_applyFilterPreset (ft : String) (img : ImageData)
    (h : bytesInRange img) : bytesInRange (applyFilterPreset ft img) := by
  unfold applyFilterPreset
  split_ifs <;>
    first
      | exact h
      | · apply bytesInRange_map _ img h
          intro px hpx
          exact ⟨clampedByte_le _, clampedByte_le _, clampedByte_le _, hpx.2.2.2⟩

theorem bytesInRange_boxBlurH (radius : ℕ) (img : ImageData) :
    bytesInRange (boxBlurH radius img) := by
  intro px hpx
  simp only [boxBlurH, List.mem_map, List.mem_range] at hpx
  obtain ⟨j, hj, rfl⟩ := hpx
  exact ⟨clampedByte_le _, clampedByte_le _, clampedByte_le _, clampedByte_le _⟩

theorem bytesInRange_boxBlurV (radius : ℕ) (img : ImageData) :
    bytesInRange (boxBlurV radius img) := by
  intro px hpx
  simp only [boxBlurV, List.mem_map, List.mem_range] at hpx
  obtain ⟨j, hj, rfl⟩ := hpx
  exact ⟨clampedByte_le _, clampedByte_le _, clampedByte_le _, clampedByte_le _⟩

theorem bytesInRange_applyBoxBlur (radius : ℕ) (img : ImageData) :
    bytesInRange (applyBoxBlur radius img) :=
  bytesInRange_boxBlurV radius (boxBlurH radius img)

theorem bytesInRange_applyUnsharpMask (amount : ℚ) (img : ImageData)
    (h : bytesInRange img) : bytesInRange (applyUnsharpMask amount img) := by
  intro px hpx
  simp only [applyUnsharpMask, List.mem_map, List.mem_range] at hpx
  obtain ⟨j, hj, rfl⟩ := hpx
  exact ⟨clampedByte_le _, clampedByte_le _, clampedByte_le _,
    (getD_pxInRange img.data h j).2.2.2⟩

theorem bytesInRange_applyNoiseEffect (amount : ℚ) (rnd1 rnd2 : ℕ → ℚ)
    (img : ImageData) (h : bytesInRange img) :
    bytesInRange (applyNoiseEffect amount rnd1 rnd2 img) := by
  intro px hpx
  simp only [applyNoiseEffect, List.mem_map, List.mem_range] at hpx
  obtain ⟨j, hj, rfl⟩ := hpx
  split_ifs with hr
  · exact getD_pxInRange img.data h j
  · exact ⟨clampedByte_le _, clampedByte_le _, clampedByte_le _,
      (getD_pxInRange img.data h j).2.2.2⟩

theorem pxInRange_vignettePx (w h x y : ℕ) (amount : ℝ) (px : Px)
    (hpx : pxInRange px) : pxInRange (vignettePx w h x y amount px) := by
  simp only [vignettePx]
  split_ifs with hd
  · refine ⟨?_, ?_, ?_, hpx.2.2.2⟩ <;>
      exact Int.toNat_le.mpr (le_trans (min_le_left _ _) (by norm_num))
  · exact hpx

theorem bytesInRange_applyVignetteEffect (amount : ℝ) (img : ImageData)
    (h : bytesInRange img) : bytesInRange (applyVignetteEffect amount img) := by
  intro px hpx
  simp only [applyVignetteEffect, List.mem_map, List.mem_range] at hpx
  obtain ⟨j, hj, rfl⟩ := hpx
  exact pxInRange_vignettePx _ _ _ _ _ _ (getD_pxInRange img.data h j)

theorem bytesInRange_applyEffects (p : EffectParams) (rnd1 rnd2 : ℕ → ℚ)
    (img : ImageData) (h : bytesInRange img) :
    bytesInRange (applyEffects p rnd1 rnd2 img) := by
  have stepFilter : ∀ i, bytesInRange i → bytesInRange
      (if p.filterType ≠ "" ∧ p.filterType ≠ "none" then applyFilterPreset p.filterType i
       else i) := by
    intro i hi
    split_ifs
    · exact bytesInRange_applyFilterPreset _ _ hi
    · exact hi
  have stepVignette : ∀ i, bytesInRange i → bytesInRange
      (if p.vignette > 0 then applyVignetteEffect ((p.vignette : ℝ) / 100) i else i) := by
    intro i hi
    split_ifs
    · exact bytesInRange_applyVignetteEffect _ _ hi
    · exact hi
  have stepNoise : ∀ i, bytesInRange i → bytesInRange
      (if p.noise > 0 then applyNoiseEffect (p.noise / 100) rnd1 rnd2 i else i) := by
    intro i hi
    split_ifs
    · exact bytesInRange_applyNoiseEffect _ _ _ _ hi
    · exact hi
  have stepBlur : ∀ i, bytesInRange i → bytesInRange
      (if p.blur > 0 then applyBoxBlur (max 1 (⌊p.blur / 20⌋).toNat) i else i) := by
    intro i hi
    split_ifs
    · exact bytesInRange_applyBoxBlur _ _
    · exact hi
  exact stepBlur _ (stepNoise _ (stepVignette _ (stepFilter _ h)))

/-- `basicInRange` is the spec range of the basic-adjustment parameters. -/
def basicInRange (p : BasicParams) : Prop :=
  0 ≤ p.brightness ∧ p.brightness ≤ 200 ∧ 0 ≤ p.contrast ∧ p.contrast ≤ 200 ∧
  -100 ≤ p.clarity ∧ p.clarity ≤ 100 ∧ 0 ≤ p.sharpen ∧ p.sharpen ≤ 100

/-- `colorInRange` is the spec range of the color-adjustment parameters. -/
def colorInRange (p : ColorParams) : Prop :=
  0 ≤ p.saturation ∧ p.saturation ≤ 200 ∧ -100 ≤ p.vibrance ∧ p.vibrance ≤ 100 ∧
  0 ≤ p.hue ∧ p.hue < 360 ∧ -100 ≤ p.temperature ∧ p.temperature ≤ 100

/-- `effectInRange` is the spec range of the effects parameters. -/
def effectInRange (p : EffectParams) : Prop :=
  p.filterType ∈ (["none", "grayscale", "sepia", "invert", "warm", "cool",
    "vintage", "dramatic", "noir", "fade"] : List String) ∧
  0 ≤ p.vignette ∧ p.vignette ≤ 100 ∧ 0 ≤ p.noise ∧ p.noise ≤ 100 ∧
  0 ≤ p.blur ∧ p.blur ≤ 100

/-- C7: for every buffer whose bytes are in `[0, 255]` and in-range
parameters, each processing operation — basic adjustments (with sharpening),
color adjustments, and effects (filter presets, vignette, noise, blur) —
produces a buffer whose bytes are all in `[0, 255]`: every store goes through
`clamp255`, the clamped-array conversion, or the clamped vignette floor, and
untouched alpha bytes come from the in-range input. -/
theorem C7_stages_preserve_byte_range (bp : BasicParams) (cp : ColorParams)
    (ep : EffectParams) (rnd1 rnd2 : ℕ → ℚ) (img : ImageData)
    (hbp : basicInRange bp) (hcp : colorInRange cp) (hep : effectInRange ep)
    (himg : bytesInRange img) :
    bytesInRange (applyBasicAdjustments bp img) ∧
    bytesInRange (applyColorAdjustments cp img) ∧
    bytesInRange (applyEffects ep rnd1 rnd2 img) := by
  refine ⟨?_, ?_, bytesInRange_applyEffects _ _ _ _ himg⟩
  · simp only [applyBasicAdjustments]
    split_ifs
    · exact bytesInRange_applyUnsharpMask _ _
        (bytesInRange_map (pxInRange_basicPixel bp) img himg)
    · exact bytesInRange_map (pxInRange_basicPixel bp) img himg
  · exact bytesInRange_map (pxInRange_colorPixel cp) img himg

/-- Witness for `C7_stages_preserve_byte_range` at the default parameters
(effects: grayscale filter, vignette 5, noise 5, blur 5) on the demo
buffer. -/
theorem C7_stages_preserve_byte_range_witness :
    basicInRange defaultBasic ∧ colorInRange defaultColor ∧
    effectInRange ⟨"grayscale", 5, 5, 5⟩ ∧ bytesInRange demoImg ∧
    (bytesInRange (applyBasicAdjustments defaultBasic demoImg) ∧
     bytesInRange (applyColorAdjustments defaultColor demoImg) ∧
     bytesInRange (applyEffects ⟨"grayscale", 5, 5, 5⟩ (fun _ => 0) (fun _ => 0) demoImg)) := by
  have h1 : basicInRange defaultBasic := by
    refine ⟨?_, ?_, ?_, ?_, ?_, ?_, ?_, ?_⟩ <;> norm_num [defaultBasic]
  have h2 : colorInRange defaultColor := by
    refine ⟨?_, ?_, ?_, ?_, ?_, ?_, ?_, ?_⟩ <;> norm_num [defaultColor]
  have h3 : effectInRange ⟨"grayscale", 5, 5, 5⟩ := by
    refine ⟨?_, ?_, ?_, ?_, ?_, ?_, ?_⟩ <;> norm_num
  have h4 : bytesInRange demoImg := by
    intro px hpx
    simp only [demoImg, List.mem_singleton] at hpx
    subst hpx
    exact ⟨by decide, by decide, by decide, by decide⟩
  exact ⟨h1, h2, h3, h4,
    C7_stages_preserve_byte_range defaultBasic defaultColor ⟨"grayscale", 5, 5, 5⟩
      (fun _ => 0) (fun _ => 0) demoImg h1 h2 h3 h4⟩

/-- The vignette darkens pixel (11,12) of a 16x16 image from 255 to 239 at
amount 1 (vignette = 100): its normalized elliptical distance is 5/8 > 1/2.
-/
theorem vignettePx_demo_eval :
    vignettePx 16 16 11 12 1 ⟨255, 255, 255, 255⟩ = ⟨239, 239, 239, 255⟩ := by
  have h25 : Real.sqrt 25 = 5 := by
    rw [show (25:ℝ) = 5 ^ 2 by norm_num]
    exact Real.sqrt_sq (by norm_num)
  have h64 : Real.sqrt 64 = 8 := by
    rw [show (64:ℝ) = 8 ^ 2 by norm_num]
    exact Real.sqrt_sq (by norm_num)
  have hmin : ((1:ℝ) ⊓ ((5 / 8 - 1 / 2) * 2) ^ 2) = 1/16 := by
    rw [min_eq_right (by norm_num : (((5:ℝ) / 8 - 1 / 2) * 2) ^ 2 ≤ 1)]
    norm_num
  have hfloor : ⌊(255:ℝ) * (1 - 1 ⊓ ((5 / 8 - 1 / 2) * 2) ^ 2)⌋ = 239 := by
    rw [hmin]
    rw [show (255:ℝ) * (1 - 1/16) = 3825/16 by norm_num]
    rw [Int.floor_eq_iff]
    norm_num
  simp only [vignettePx]
  norm_num
  rw [h25, h64]
  rw [if_pos (by norm_num : (1:ℝ)/2 < 5/8)]
  rw [hfloor]
  decide

/-- C9 (counterexample): pixel (11,12) of a 16x16 image lies at Euclidean
distance 5 from the center (8,8) — at most 50% of the image radius, since
half the center-to-corner distance is `√128 / 2 = 4√2 ≈ 5.657` — yet
`applyVignetteEffect` at amount 1 (vignette = 100) changes it from
`(255,255,255,255)` to `(239,239,239,255)`: the guard uses the per-axis
normalized elliptical distance, not the Euclidean distance against the image
radius. -/
theorem C9_inner_pixel_darkened :
    Real.sqrt (((11:ℝ) - 8) ^ 2 + ((12:ℝ) - 8) ^ 2)
      ≤ Real.sqrt ((8:ℝ) ^ 2 + (8:ℝ) ^ 2) / 2 ∧
    vignettePx 16 16 11 12 1 ⟨255, 255, 255, 255⟩ ≠ ⟨255, 255, 255, 255⟩ := by
  constructor
  · have h5 : Real.sqrt (((11:ℝ) - 8) ^ 2 + ((12:ℝ) - 8) ^ 2) = 5 := by
      rw [show ((11:ℝ) - 8) ^ 2 + ((12:ℝ) - 8) ^ 2 = 5 ^ 2 by norm_num]
      exact Real.sqrt_sq (by norm_num)
    rw [h5]
    have h100 : Real.sqrt 100 = 10 := by
      rw [show (100:ℝ) = 10 ^ 2 by norm_num]
      exact Real.sqrt_sq (by norm_num)
    have hle : (10:ℝ) ≤ Real.sqrt ((8:ℝ) ^ 2 + (8:ℝ) ^ 2) := by
      calc (10:ℝ) = Real.sqrt 100 := h100.symm
        _ ≤ Real.sqrt ((8:ℝ) ^ 2 + (8:ℝ) ^ 2) := Real.sqrt_le_sqrt (by norm_num)
    rw [le_div_iff₀ (by norm_num : (0:ℝ) < 2)]
    linarith
  · rw [vignettePx_demo_eval]
    decide

/-- C9 (amended): a pixel is left unchanged by the vignette effect, for every
amount, exactly when its *normalized* distance — x offset as a fraction of the
half-width, y offset as a fraction of the half-height — is at most 1/2 (the
code's `distance > 0.5` guard on `sqrt(dx^2 + dy^2)` with `dx = (x-cx)/cx`,
`dy = (y-cy)/cy`). -/
theorem C9_vignette_skips_inner_ellipse (img : ImageData) (amount : ℝ) (j : ℕ)
    (hj : j < img.width * img.height)
    (hdist : Real.sqrt
        (((((j % img.width : ℕ) : ℝ) - (img.width : ℝ) / 2) / ((img.width : ℝ) / 2)) ^ 2
          + ((((j / img.width : ℕ) : ℝ) - (img.height : ℝ) / 2) / ((img.height : ℝ) / 2)) ^ 2)
      ≤ 1 / 2) :
    (applyVignetteEffect amount img).data.getD j blankPx
      = img.data.getD j blankPx := by
  simp only [applyVignetteEffect]
  rw [getD_rangeMap _ _ _ _ hj]
  simp only [vignettePx]
  rw [if_neg (not_lt.mpr hdist)]

/-- A 2x2 demonstration buffer. -/
def demoImg2 : ImageData :=
  ⟨2, 2, [⟨1, 2, 3, 4⟩, ⟨5, 6, 7, 8⟩, ⟨9, 10, 11, 12⟩, ⟨13, 14, 15, 16⟩]⟩

/-- Witness for `C9_vignette_skips_inner_ellipse`: the center pixel (1,1) of
a 2x2 image (index 3) has normalized distance 0 and is unchanged at
vignette amount 1. -/
theorem C9_vignette_skips_inner_ellipse_witness :
    3 < demoImg2.width * demoImg2.height ∧
    Real.sqrt
        (((((3 % demoImg2.width : ℕ) : ℝ) - (demoImg2.width : ℝ) / 2)
            / ((demoImg2.width : ℝ) / 2)) ^ 2
          + ((((3 / demoImg2.width : ℕ) : ℝ) - (demoImg2.height : ℝ) / 2)
            / ((demoImg2.height : ℝ) / 2)) ^ 2) ≤ 1 / 2 ∧
    (applyVignetteEffect 1 demoImg2).data.getD 3 blankPx
      = demoImg2.data.getD 3 blankPx := by
  have hj : 3 < demoImg2.width * demoImg2.height := by norm_num [demoImg2]
  have hdist : Real.sqrt
      (((((3 % demoImg2.width : ℕ) : ℝ) - (demoImg2.width : ℝ) / 2)
          / ((demoImg2.width : ℝ) / 2)) ^ 2
        + ((((3 / demoImg2.width : ℕ) : ℝ) - (demoImg2.height : ℝ) / 2)
          / ((demoImg2.height : ℝ) / 2)) ^ 2) ≤ 1 / 2 := by
    have : (((((3 % demoImg2.width : ℕ) : ℝ) - (demoImg2.width : ℝ) / 2)
          / ((demoImg2.width : ℝ) / 2)) ^ 2
        + ((((3 / demoImg2.width : ℕ) : ℝ) - (demoImg2.height : ℝ) / 2)
          / ((demoImg2.height : ℝ) / 2)) ^ 2) = 0 := by
      norm_num [demoImg2]
    rw [this, Real.sqrt_zero]
    norm_num
  exact ⟨hj, hdist, C9_vignette_skips_inner_ellipse demoImg2 1 3 hj hdist⟩

/-- C8: for every RGB triple with integer channels in `[0, 255]`,
`hslToRgb (rgbToHsl r g b)` returns `(r, g, b)` within ±1 per channel — in
fact exactly, since the round trip is exact over rational arithmetic
(`hsl_roundtrip_exact`). -/
theorem C8_hsl_roundtrip_within_one (r g b : ℕ)
    (hr : r ≤ 255) (hg : g ≤ 255) (hb : b ≤ 255) :
    |(hslToRgb (rgbToHsl r g b).1 (rgbToHsl r g b).2.1 (rgbToHsl r g b).2.2).1 - (r : ℚ)| ≤ 1 ∧
    |(hslToRgb (rgbToHsl r g b).1 (rgbToHsl r g b).2.1 (rgbToHsl r g b).2.2).2.1 - (g : ℚ)| ≤ 1 ∧
    |(hslToRgb (rgbToHsl r g b).1 (rgbToHsl r g b).2.1 (rgbToHsl r g b).2.2).2.2 - (b : ℚ)| ≤ 1 := by
  have h := hsl_roundtrip_exact (r : ℚ) (g : ℚ) (b : ℚ)
    (by positivity) (by exact_mod_cast hr) (by positivity) (by exact_mod_cast hg)
    (by positivity) (by exact_mod_cast hb)
  rw [h]
  norm_num

/-- Witness for `C8_hsl_roundtrip_within_one` at the triple (12, 34, 56). -/
theorem C8_hsl_roundtrip_within_one_witness :
    ((12 : ℕ) ≤ 255 ∧ (34 : ℕ) ≤ 255 ∧ (56 : ℕ) ≤ 255) ∧
    (|(hslToRgb (rgbToHsl ((12:ℕ):ℚ) ((34:ℕ):ℚ) ((56:ℕ):ℚ)).1
        (rgbToHsl ((12:ℕ):ℚ) ((34:ℕ):ℚ) ((56:ℕ):ℚ)).2.1
        (rgbToHsl ((12:ℕ):ℚ) ((34:ℕ):ℚ) ((56:ℕ):ℚ)).2.2).1 - ((12:ℕ):ℚ)| ≤ 1 ∧
     |(hslToRgb (rgbToHsl ((12:ℕ):ℚ) ((34:ℕ):ℚ) ((56:ℕ):ℚ)).1
        (rgbToHsl ((12:ℕ):ℚ) ((34:ℕ):ℚ) ((56:ℕ):ℚ)).2.1
        (rgbToHsl ((12:ℕ):ℚ) ((34:ℕ):ℚ) ((56:ℕ):ℚ)).2.2).2.1 - ((34:ℕ):ℚ)| ≤ 1 ∧
     |(hslToRgb (rgbToHsl ((12:ℕ):ℚ) ((34:ℕ):ℚ) ((56:ℕ):ℚ)).1
        (rgbToHsl ((12:ℕ):ℚ) ((34:ℕ):ℚ) ((56:ℕ):ℚ)).2.1
        (rgbToHsl ((12:ℕ):ℚ) ((34:ℕ):ℚ) ((56:ℕ):ℚ)).2.2).2.2 - ((56:ℕ):ℚ)| ≤ 1) :=
  ⟨⟨by norm_num, by norm_num, by norm_num⟩,
    C8_hsl_roundtrip_within_one 12 34 56 (by norm_num) (by norm_num) (by norm_num)⟩
